import Mathlib

/-!
Order lookup widget (`internal/web/static/script.js`).

A shallow embedding of the page script: two click handlers over two DOM
fields (`inputUid.value`, `output.textContent`), one `fetch` call and the
promise chain `.then(...).then(...).catch(...)` attached to it.  The four
elements are taken to exist, as the script takes them to.

Strings are Lean strings, sequences of code points; every code point that
`trim` strips is a single UTF-16 code unit, so trimming by code point and by
code unit agree.  The platform calls the script makes (`alert`,
`fetch`, `response.json()`) and the assignments it performs are recorded in
a trace, in program order, so that "no request", "exactly one alert" and
"exactly one write" are statements about that trace.
-/

namespace OrderWidget

/-! ## Strings -/

/-- Code points that `String.prototype.trim` strips: ECMAScript `WhiteSpace`
(TAB, VT, FF, ZWNBSP and the space separators) and `LineTerminator`
(LF, CR, LS, PS). -/
def isTrimChar (c : Char) : Bool :=
  let n := c.toNat
  n == 0x09 || n == 0x0A || n == 0x0B || n == 0x0C || n == 0x0D ||
  n == 0x20 || n == 0xA0 || n == 0x1680 ||
  (0x2000 ≤ n && n ≤ 0x200A) ||
  n == 0x2028 || n == 0x2029 || n == 0x202F || n == 0x205F ||
  n == 0x3000 || n == 0xFEFF

/-- Strip the leading run of trim characters. -/
def trimStart (l : List Char) : List Char :=
  l.dropWhile isTrimChar

/-- Strip the trailing run of trim characters. -/
def trimEnd (l : List Char) : List Char :=
  (l.reverse.dropWhile isTrimChar).reverse

/-- The method `String.prototype.trim`, as used in `inputUid.value.trim()`. -/
def trim (s : String) : String :=
  String.mk (trimEnd (trimStart s.data))

/-! ## Values exchanged with the platform -/

/-- An error object, as far as the script looks at it: `error.message`. -/
structure JSError where
  message : String
deriving DecidableEq, Repr

/-- A settled promise: rejected with an error, or fulfilled with a value. -/
abbrev Settled (α : Type) := Except JSError α

/-- The response the `fetch` promise is fulfilled with.  `status` is the HTTP
status code; `json` is how the promise returned by `response.json()` settles
(the parsed body, or the parse error). -/
structure Response (δ : Type) where
  status : Nat
  json : Settled δ

/-- The getter `response.ok`: the status is in the range 200 to 299. -/
def Response.ok {δ : Type} (r : Response δ) : Bool :=
  200 ≤ r.status && r.status ≤ 299

/-- How the promise returned by `fetch` settles. -/
inductive Outcome (δ : Type) where
  /-- rejected at the network level -/
  | rejected (e : JSError)
  /-- fulfilled with a response -/
  | responded (r : Response δ)

/-! ## Widget state -/

/-- Calls to the platform and assignments to the page, in program order. -/
inductive Effect where
  /-- line 12: `alert(msg)` -/
  | alert (msg : String)
  /-- line 16: `fetch(url)` -/
  | fetch (url : String)
  /-- line 21: `response.json()` -/
  | json
  /-- line 24: `output.textContent = text` in the data handler -/
  | renderData (text : String)
  /-- line 27: `output.textContent = text` in the catch handler -/
  | renderError (text : String)
  /-- line 33: `inputUid.value = ''` -/
  | clearValue
  /-- line 34: `output.textContent = ''` -/
  | clearOutput
deriving DecidableEq, Repr

/-- The page as the script sees it, together with the requests in flight.
A request is named by its issue number (the first `fetch` is request 0). -/
structure Widget where
  /-- `inputUid.value` -/
  value : String
  /-- `output.textContent` -/
  textContent : String
  /-- effects so far, oldest first -/
  trace : List Effect
  /-- requests issued and not yet settled -/
  pending : List Nat
  /-- number of requests issued so far -/
  issued : Nat
deriving DecidableEq, Repr

/-! ## The promise chain -/

/-- Method `promise.then(f)`: `f` runs on fulfilment, and the new promise
settles as `f` does (a returned promise is adopted, a thrown error rejects);
a rejection passes through untouched. -/
def thenP {α β : Type} (p : Settled α × Widget)
    (f : α → Widget → Settled β × Widget) : Settled β × Widget :=
  match p with
  | (.ok a, w) => f a w
  | (.error e, w) => (.error e, w)

/-- Method `promise.catch(f)`: `f` runs on rejection; a fulfilment passes
through untouched. -/
def catchP {α : Type} (p : Settled α × Widget)
    (f : JSError → Widget → Settled α × Widget) : Settled α × Widget :=
  match p with
  | (.ok a, w) => (.ok a, w)
  | (.error e, w) => f e w

/-- Lines 17-22: the first `then` handler. -/
def onResponse {δ : Type} (response : Response δ) (w : Widget) :
    Settled δ × Widget :=
  if !response.ok then
    (.error ⟨"Order not found"⟩, w)
  else
    (response.json, { w with trace := w.trace ++ [Effect.json] })

/-- Lines 23-25: the second `then` handler.  `stringify` stands for
`JSON.stringify(·, null, 2)`. -/
def onData {δ : Type} (stringify : δ → String) (data : δ) (w : Widget) :
    Settled Unit × Widget :=
  let text := stringify data
  (.ok (), { w with textContent := text,
                    trace := w.trace ++ [Effect.renderData text] })

/-- Lines 26-28: the `catch` handler. -/
def onError (error : JSError) (w : Widget) : Settled Unit × Widget :=
  let text := "Ошибка: " ++ error.message
  (.ok (), { w with textContent := text,
                    trace := w.trace ++ [Effect.renderError text] })

/-- The `fetch` promise, once settled. -/
def fetched {δ : Type} : Outcome δ → Settled (Response δ)
  | .rejected e => .error e
  | .responded r => .ok r

/-- Lines 16-28 after the request has settled with outcome `o`: the whole
chain, giving the settlement of the last promise and the page it leaves. -/
def settle {δ : Type} (stringify : δ → String) (o : Outcome δ) (w : Widget) :
    Settled Unit × Widget :=
  catchP (thenP (thenP (fetched o, w) onResponse) (onData stringify)) onError

/-! ## Click handlers -/

/-- Lines 9-29: the click handler of `btnFetch`, up to its return. -/
def btnFetchClick (w : Widget) : Widget :=
  let uid := trim w.value
  if uid = "" then
    { w with trace := w.trace ++ [Effect.alert "Введите UID заказа"] }
  else
    { w with trace := w.trace ++ [Effect.fetch ("/order/" ++ uid)],
             pending := w.pending ++ [w.issued],
             issued := w.issued + 1 }

/-- Lines 32-35: the click handler of `btnClear`. -/
def btnClearClick (w : Widget) : Widget :=
  { w with value := "",
           textContent := "",
           trace := w.trace ++ [Effect.clearValue, Effect.clearOutput] }

/-! ## Event loop -/

/-- What the event loop can deliver to the page. -/
inductive Event (δ : Type) where
  /-- the user edits the identifier field -/
  | input (v : String)
  /-- click on `btnFetch` -/
  | clickFetch
  /-- click on `btnClear` -/
  | clickClear
  /-- request `id` settles with outcome `o` -/
  | complete (id : Nat) (o : Outcome δ)

/-- One turn of the event loop.  A request settles once: a completion for a
request that is not in flight is not delivered. -/
def step {δ : Type} (stringify : δ → String) (w : Widget) : Event δ → Widget
  | .input v => { w with value := v }
  | .clickFetch => btnFetchClick w
  | .clickClear => btnClearClick w
  | .complete id o =>
    if id ∈ w.pending then
      let w' := (settle stringify o w).2
      { w' with pending := w'.pending.filter (fun j => j != id) }
    else w

/-- Deliver a sequence of events, oldest first. -/
def run {δ : Type} (stringify : δ → String) (w : Widget) (es : List (Event δ)) :
    Widget :=
  es.foldl (step stringify) w

/-! ## A concrete serializer

The chain is stated for any value type and any serializer.  To evaluate it
on concrete bodies, the values below are the parsed JSON values without
numbers (members in enumeration order), printed the way
`JSON.stringify(·, null, 2)` prints them. -/

mutual
/-- A parsed JSON value without numbers. -/
inductive Json where
  | null
  | bool (b : Bool)
  | str (s : String)
  | arr (items : Items)
  | obj (members : Members)
/-- The elements of an array. -/
inductive Items where
  | nil
  | cons (head : Json) (tail : Items)
/-- The members of an object. -/
inductive Members where
  | nil
  | cons (key : String) (value : Json) (tail : Members)
end

/-- A lower-case hexadecimal digit. -/
def hexDigit (n : Nat) : Char :=
  if n < 10 then Char.ofNat (48 + n) else Char.ofNat (87 + n)

/-- One character inside a JSON string literal. -/
def escapeChar (c : Char) : String :=
  let n := c.toNat
  if n == 0x08 then "\\b"
  else if n == 0x09 then "\\t"
  else if n == 0x0A then "\\n"
  else if n == 0x0C then "\\f"
  else if n == 0x0D then "\\r"
  else if n == 0x22 then "\\\""
  else if n == 0x5C then "\\\\"
  else if n < 0x20 then
    "\\u00" ++ String.mk [hexDigit (n / 16), hexDigit (n % 16)]
  else String.mk [c]

/-- A JSON string literal. -/
def quote (s : String) : String :=
  "\"" ++ String.join (s.data.map escapeChar) ++ "\""

/-- An array or object body: the parts, one per line, one level deeper than
`ind`, between the brackets `o` and `c`; nothing between them when empty. -/
def wrap (o c ind : String) (parts : List String) : String :=
  match parts with
  | [] => o ++ c
  | _ :: _ =>
    o ++ "\n" ++ ind ++ "  " ++ (",\n" ++ ind ++ "  ").intercalate parts ++
      "\n" ++ ind ++ c

mutual
/-- The value printed at indentation `ind`. -/
def Json.render (ind : String) : Json → String
  | .null => "null"
  | .bool b => if b then "true" else "false"
  | .str s => quote s
  | .arr items => wrap "[" "]" ind (items.parts (ind ++ "  "))
  | .obj members => wrap "\x7b" "\x7d" ind (members.parts (ind ++ "  "))
/-- The printed elements of an array whose elements sit at `ind`. -/
def Items.parts (ind : String) : Items → List String
  | .nil => []
  | .cons x xs => x.render ind :: xs.parts ind
/-- The printed members of an object whose members sit at `ind`. -/
def Members.parts (ind : String) : Members → List String
  | .nil => []
  | .cons k v ms => (quote k ++ ": " ++ v.render ind) :: ms.parts ind
end

/-- The call `JSON.stringify(d, null, 2)` on number-free values. -/
def stringify2 (d : Json) : String :=
  d.render ""

/-- The body `\x7b"id":"abc123","status":"shipped"\x7d`, parsed. -/
def shippedOrder : Json :=
  .obj (.cons "id" (.str "abc123") (.cons "status" (.str "shipped") .nil))

/-- The text the specification gives for each outcome of a request: the
printed body on a success status with a parsable body, the fixed not-found
message on a failure status, and otherwise the message of the error. -/
def specRendering {δ : Type} (stringify : δ → String) : Outcome δ → String
  | .rejected e => "Ошибка: " ++ e.message
  | .responded r =>
    if r.ok then
      match r.json with
      | .ok d => stringify d
      | .error e => "Ошибка: " ++ e.message
    else "Ошибка: Order not found"

/-- Events that can assign to `output.textContent`. -/
def Event.touchesOutput {δ : Type} : Event δ → Bool
  | .input _ => false
  | .clickFetch => false
  | .clickClear => true
  | .complete _ _ => true

/-- Event `e` is the settlement of request `id`. -/
def Event.completes {δ : Type} (id : Nat) : Event δ → Bool
  | .complete j _ => j == id
  | _ => false

/-- Assignments to `output.textContent` made by the data handler. -/
def Effect.isDataWrite : Effect → Bool
  | .renderData _ => true
  | _ => false

/-- Assignments to `output.textContent` made by the catch handler. -/
def Effect.isErrorWrite : Effect → Bool
  | .renderError _ => true
  | _ => false

/-- The page with request `id` taken out of flight. -/
def dropRequest (id : Nat) (w : Widget) : Widget :=
  { w with pending := w.pending.filter (fun j => j != id) }

/-! ## Lemmas on the serializer -/

theorem stringify2_shippedOrder : stringify2 shippedOrder =
    "\x7b\n  \"id\": \"abc123\",\n  \"status\": \"shipped\"\n\x7d" := by decide

theorem stringify2_nested :
    stringify2 (.obj (.cons "a" (.arr (.cons .null (.cons (.obj .nil) .nil))) .nil)) =
    "\x7b\n  \"a\": [\n    null,\n    \x7b\x7d\n  ]\n\x7d" := by decide

theorem stringify2_escapes :
    stringify2 (.str "a\"b\n\x01") = "\"a\\\"b\\n\\u0001\"" := by decide

/-! ## Lemmas on strings -/

theorem trimEnd_eq_nil_iff (l : List Char) :
    trimEnd l = [] ↔ ∀ c ∈ l, isTrimChar c = true := by
  simp [trimEnd, List.dropWhile_eq_nil_iff]

theorem trimStart_all_iff (l : List Char) :
    (∀ c ∈ trimStart l, isTrimChar c = true) ↔ ∀ c ∈ l, isTrimChar c = true := by
  unfold trimStart
  induction l with
  | nil => simp
  | cons a t ih =>
    by_cases ha : isTrimChar a = true
    · simp [List.dropWhile_cons, ha, ih]
    · simp only [List.dropWhile_cons, ha]
      simp

theorem trim_eq_empty_iff (s : String) :
    trim s = "" ↔ ∀ c ∈ s.data, isTrimChar c = true := by
  have h : trim s = "" ↔ trimEnd (trimStart s.data) = [] := by
    unfold trim
    constructor
    · intro h
      have := congrArg String.data h
      simpa using this
    · intro h
      rw [h]
  rw [h, trimEnd_eq_nil_iff, trimStart_all_iff]

theorem trimStart_split (l : List Char) :
    l = l.takeWhile isTrimChar ++ trimStart l := by
  unfold trimStart
  exact (List.takeWhile_append_dropWhile isTrimChar l).symm

theorem trimEnd_split (l : List Char) :
    l = trimEnd l ++ (l.reverse.takeWhile isTrimChar).reverse := by
  unfold trimEnd
  have h := List.takeWhile_append_dropWhile isTrimChar l.reverse
  have h2 := congrArg List.reverse h
  simp only [List.reverse_append, List.reverse_reverse] at h2
  exact h2.symm

theorem trimStart_head (l : List Char) (c : Char)
    (hc : (trimStart l).head? = some c) : isTrimChar c = false := by
  unfold trimStart at hc
  induction l with
  | nil => simp at hc
  | cons a t ih =>
    by_cases ha : isTrimChar a = true
    · rw [List.dropWhile_cons_of_pos ha] at hc
      exact ih hc
    · rw [List.dropWhile_cons_of_neg ha] at hc
      simp only [List.head?_cons, Option.some.injEq] at hc
      rw [← hc]
      simpa using ha

theorem trimEnd_getLast (l : List Char) (c : Char)
    (hc : (trimEnd l).getLast? = some c) : isTrimChar c = false := by
  unfold trimEnd at hc
  rw [List.getLast?_reverse] at hc
  exact trimStart_head l.reverse c hc

theorem trimEnd_head (l : List Char) (c : Char)
    (hc : (trimEnd l).head? = some c) : l.head? = some c := by
  have h := trimEnd_split l
  cases ht : trimEnd l with
  | nil => rw [ht] at hc; simp at hc
  | cons a t =>
    rw [ht] at hc h
    rw [h]
    simpa using hc

theorem append_ne_empty (a b : String) (h : a ≠ "") : a ++ b ≠ "" := by
  intro hab
  apply h
  have h1 := congrArg String.length hab
  simp only [String.length_append] at h1
  have h2 : a.length = 0 := by
    have : ("" : String).length = 0 := rfl
    omega
  cases a with
  | mk l =>
    cases l with
    | nil => rfl
    | cons c t => simp [String.length] at h2

/-! ## Lemmas on the chain -/

theorem settle_rejected {δ : Type} (stringify : δ → String) (e : JSError)
    (w : Widget) : settle stringify (.rejected e) w = onError e w := by
  simp [settle, fetched, thenP, catchP]

theorem settle_not_ok {δ : Type} (stringify : δ → String) (r : Response δ)
    (w : Widget) (hok : r.ok = false) :
    settle stringify (.responded r) w = onError ⟨"Order not found"⟩ w := by
  simp [settle, fetched, thenP, catchP, onResponse, hok]

theorem settle_parse_error {δ : Type} (stringify : δ → String)
    (r : Response δ) (e : JSError) (w : Widget) (hok : r.ok = true)
    (hj : r.json = .error e) :
    settle stringify (.responded r) w =
      onError e { w with trace := w.trace ++ [Effect.json] } := by
  simp [settle, fetched, thenP, catchP, onResponse, hok, hj]

theorem settle_data {δ : Type} (stringify : δ → String)
    (r : Response δ) (d : δ) (w : Widget) (hok : r.ok = true)
    (hj : r.json = .ok d) :
    settle stringify (.responded r) w =
      onData stringify d { w with trace := w.trace ++ [Effect.json] } := by
  simp [settle, fetched, thenP, catchP, onResponse, onData, hok, hj]

theorem step_complete_pending {δ : Type} (stringify : δ → String)
    (w : Widget) (id : Nat) (o : Outcome δ) (hp : id ∈ w.pending) :
    step stringify w (.complete id o) =
      dropRequest id (settle stringify o w).2 := by
  simp [step, hp, dropRequest]

theorem settle_eq {δ : Type} (stringify : δ → String) (o : Outcome δ) :
    ∃ new : List Effect, ∀ w : Widget,
      settle stringify o w =
        (.ok (), { w with textContent := specRendering stringify o,
                          trace := w.trace ++ new }) := by
  cases o with
  | rejected e =>
    exact ⟨[Effect.renderError ("Ошибка: " ++ e.message)], fun w => by
      rw [settle_rejected]; rfl⟩
  | responded r =>
    cases hok : r.ok with
    | false =>
      exact ⟨[Effect.renderError ("Ошибка: " ++ "Order not found")], fun w => by
        rw [settle_not_ok stringify r w hok]
        simp [onError, specRendering, hok]⟩
    | true =>
      cases hj : r.json with
      | error e =>
        exact ⟨[Effect.json, Effect.renderError ("Ошибка: " ++ e.message)], fun w => by
          rw [settle_parse_error stringify r e w hok hj]
          simp [onError, specRendering, hok, hj]⟩
      | ok d =>
        exact ⟨[Effect.json, Effect.renderData (stringify d)], fun w => by
          rw [settle_data stringify r d w hok hj]
          simp [onData, specRendering, hok, hj]⟩

theorem specRendering_ne_empty {δ : Type} (stringify : δ → String)
    (hne : ∀ d, stringify d ≠ "") (o : Outcome δ) :
    specRendering stringify o ≠ "" := by
  have herr : ∀ m : String, "Ошибка: " ++ m ≠ "" :=
    fun m => append_ne_empty _ m (by decide)
  cases o with
  | rejected e => exact herr e.message
  | responded r =>
    cases hok : r.ok with
    | false =>
      simp only [specRendering, hok, Bool.false_eq_true, if_false]
      decide
    | true =>
      cases hj : r.json with
      | error e =>
        simp only [specRendering, hok, hj]
        exact herr e.message
      | ok d =>
        simp only [specRendering, hok, hj]
        exact hne d

theorem wrap_ne_empty (o c ind : String) (parts : List String) (ho : o ≠ "") :
    wrap o c ind parts ≠ "" := by
  cases parts with
  | nil => exact append_ne_empty o c ho
  | cons p ps =>
    simp only [wrap]
    repeat apply append_ne_empty
    exact ho

theorem stringify2_ne_empty (d : Json) : stringify2 d ≠ "" := by
  unfold stringify2
  cases d with
  | null => simp only [Json.render]; decide
  | bool b => cases b <;> simp only [Json.render] <;> decide
  | str s =>
    simp only [Json.render, quote]
    repeat apply append_ne_empty
    decide
  | arr items =>
    simp only [Json.render]
    exact wrap_ne_empty _ _ _ _ (by decide)
  | obj members =>
    simp only [Json.render]
    exact wrap_ne_empty _ _ _ _ (by decide)

/-! ## Lemmas on the event loop -/

theorem run_append {δ : Type} (stringify : δ → String) (w : Widget)
    (es fs : List (Event δ)) :
    run stringify w (es ++ fs) = run stringify (run stringify w es) fs := by
  simp [run, List.foldl_append]

theorem run_cons {δ : Type} (stringify : δ → String) (w : Widget)
    (e : Event δ) (es : List (Event δ)) :
    run stringify w (e :: es) = run stringify (step stringify w e) es := rfl

theorem step_quiet {δ : Type} (stringify : δ → String) (w : Widget)
    (e : Event δ) (hq : e.touchesOutput = false) :
    (step stringify w e).textContent = w.textContent := by
  cases e with
  | input v => rfl
  | clickFetch =>
    simp only [step, btnFetchClick]
    split <;> rfl
  | clickClear => simp [Event.touchesOutput] at hq
  | complete id o => simp [Event.touchesOutput] at hq

theorem run_quiet {δ : Type} (stringify : δ → String) (es : List (Event δ)) :
    ∀ w : Widget, (∀ e ∈ es, e.touchesOutput = false) →
      (run stringify w es).textContent = w.textContent := by
  induction es with
  | nil => intro w _; rfl
  | cons e es ih =>
    intro w hq
    rw [run_cons, ih _ (fun x hx => hq x (List.mem_cons_of_mem _ hx)),
      step_quiet stringify w e (hq e (List.mem_cons_self _ _))]

theorem step_complete_textContent {δ : Type} (stringify : δ → String)
    (w : Widget) (id : Nat) (o : Outcome δ) (hp : id ∈ w.pending) :
    (step stringify w (.complete id o)).textContent = specRendering stringify o ∧
    (step stringify w (.complete id o)).value = w.value := by
  obtain ⟨new, hnew⟩ := settle_eq stringify o
  rw [step_complete_pending stringify w id o hp, hnew w]
  exact ⟨rfl, rfl⟩

theorem step_keeps_pending {δ : Type} (stringify : δ → String) (w : Widget)
    (id : Nat) (e : Event δ) (hp : id ∈ w.pending)
    (he : e.completes id = false) : id ∈ (step stringify w e).pending := by
  cases e with
  | input v => exact hp
  | clickFetch =>
    simp only [step, btnFetchClick]
    split
    · exact hp
    · exact List.mem_append_left _ hp
  | clickClear => exact hp
  | complete j o =>
    have hj : j ≠ id := by
      intro h
      simp [Event.completes, h] at he
    by_cases hjp : j ∈ w.pending
    · obtain ⟨new, hnew⟩ := settle_eq stringify o
      rw [step_complete_pending stringify w j o hjp, hnew w]
      simp only [dropRequest, List.mem_filter]
      refine ⟨hp, ?_⟩
      simpa using fun h => hj h.symm
    · simp only [step, hjp, if_false]
      exact hp

theorem run_keeps_pending {δ : Type} (stringify : δ → String) (id : Nat)
    (es : List (Event δ)) :
    ∀ w : Widget, id ∈ w.pending → (∀ e ∈ es, e.completes id = false) →
      id ∈ (run stringify w es).pending := by
  induction es with
  | nil => intro w hp _; exact hp
  | cons e es ih =>
    intro w hp he
    rw [run_cons]
    exact ih _ (step_keeps_pending stringify w id e hp (he e (List.mem_cons_self _ _)))
      (fun x hx => he x (List.mem_cons_of_mem _ hx))

theorem step_dropRequest {δ : Type} (stringify : δ → String) (w : Widget)
    (id : Nat) (e : Event δ) (hid : id < w.issued)
    (he : e.completes id = false) :
    step stringify (dropRequest id w) e = dropRequest id (step stringify w e) ∧
    id < (step stringify w e).issued := by
  cases e with
  | input v => exact ⟨rfl, hid⟩
  | clickFetch =>
    simp only [step, btnFetchClick, dropRequest]
    split
    · exact ⟨rfl, hid⟩
    · refine ⟨?_, Nat.lt_succ_of_lt hid⟩
      have hne : (w.issued != id) = true := by
        simpa using (Nat.ne_of_gt hid)
      simp [List.filter_append, List.filter_cons, hne]
  | clickClear => exact ⟨rfl, hid⟩
  | complete j o =>
    have hj : j ≠ id := by
      intro h
      simp [Event.completes, h] at he
    obtain ⟨new, hnew⟩ := settle_eq stringify o
    by_cases hjp : j ∈ w.pending
    · have hjp2 : j ∈ (dropRequest id w).pending := by
        simp only [dropRequest, List.mem_filter]
        exact ⟨hjp, by simpa using hj⟩
      rw [step_complete_pending stringify w j o hjp,
        step_complete_pending stringify _ j o hjp2, hnew w, hnew (dropRequest id w)]
      refine ⟨?_, hid⟩
      simp only [dropRequest, List.filter_filter]
      congr 1
      apply List.filter_congr
      intro x _
      exact Bool.and_comm _ _
    · have hjp2 : j ∉ (dropRequest id w).pending := by
        simp only [dropRequest, List.mem_filter]
        exact fun h => hjp h.1
      simp only [step, hjp, hjp2, if_false]
      exact ⟨trivial, hid⟩

theorem run_dropRequest {δ : Type} (stringify : δ → String) (id : Nat)
    (es : List (Event δ)) :
    ∀ w : Widget, id < w.issued → (∀ e ∈ es, e.completes id = false) →
      run stringify (dropRequest id w) es = dropRequest id (run stringify w es) := by
  induction es with
  | nil => intro w _ _; rfl
  | cons e es ih =>
    intro w hid he
    have h := step_dropRequest stringify w id e hid (he e (List.mem_cons_self _ _))
    rw [run_cons, run_cons, h.1]
    exact ih _ h.2 (fun x hx => he x (List.mem_cons_of_mem _ hx))

/-! ## The fetch click -/

/-- C1: the trimmed identifier is empty exactly for the empty and the
whitespace-only field values, and for each of them the fetch click calls
`alert` once with "Введите UID заказа" and does nothing else: no `fetch`,
output region and identifier field as before, no request put in flight. -/
theorem fetch_click_empty_identifier (w : Widget) :
    (trim w.value = "" ↔ ∀ c ∈ w.value.data, isTrimChar c = true) ∧
    (trim w.value = "" →
      (btnFetchClick w).trace = w.trace ++ [Effect.alert "Введите UID заказа"] ∧
      (btnFetchClick w).textContent = w.textContent ∧
      (btnFetchClick w).value = w.value ∧
      (btnFetchClick w).pending = w.pending ∧
      (btnFetchClick w).issued = w.issued) := by
  refine ⟨trim_eq_empty_iff w.value, ?_⟩
  intro h
  simp [btnFetchClick, h]

theorem fetch_click_empty_identifier_witness :
    (btnFetchClick ⟨" \t\n", "old", [], [], 0⟩).trace =
        [] ++ [Effect.alert "Введите UID заказа"] ∧
    (btnFetchClick ⟨" \t\n", "old", [], [], 0⟩).textContent = "old" ∧
    (btnFetchClick ⟨" \t\n", "old", [], [], 0⟩).value = " \t\n" ∧
    (btnFetchClick ⟨" \t\n", "old", [], [], 0⟩).pending = [] ∧
    (btnFetchClick ⟨" \t\n", "old", [], [], 0⟩).issued = 0 :=
  (fetch_click_empty_identifier ⟨" \t\n", "old", [], [], 0⟩).2 (by decide)

/-- C2: when the trimmed identifier `t` is not empty, the fetch click calls
`fetch` once, with the argument "/order/" followed by `t`, and calls no
`alert`.  `t` is the field value with the surrounding whitespace removed:
the value is a whitespace-only run, then `t`, then a whitespace-only run,
and `t` neither starts nor ends with a whitespace character; the characters
of `t` are those of the value, unchanged and in place. -/
theorem fetch_click_issues_request (w : Widget) (h : trim w.value ≠ "") :
    (btnFetchClick w).trace =
      w.trace ++ [Effect.fetch ("/order/" ++ trim w.value)] ∧
    (btnFetchClick w).pending = w.pending ++ [w.issued] ∧
    (btnFetchClick w).issued = w.issued + 1 ∧
    (∃ pre post : List Char,
      w.value.data = pre ++ (trim w.value).data ++ post ∧
      (∀ c ∈ pre, isTrimChar c = true) ∧ (∀ c ∈ post, isTrimChar c = true)) ∧
    (∃ c, (trim w.value).data.head? = some c ∧ isTrimChar c = false) ∧
    (∃ c, (trim w.value).data.getLast? = some c ∧ isTrimChar c = false) := by
  have hne : trimEnd (trimStart w.value.data) ≠ [] := by
    intro hnil
    apply h
    unfold trim
    rw [hnil]
  refine ⟨?_, ?_, ?_, ?_, ?_, ?_⟩
  · simp [btnFetchClick, h]
  · simp [btnFetchClick, h]
  · simp [btnFetchClick, h]
  · refine ⟨w.value.data.takeWhile isTrimChar,
      ((trimStart w.value.data).reverse.takeWhile isTrimChar).reverse, ?_, ?_, ?_⟩
    · have h1 := trimStart_split w.value.data
      have h2 := trimEnd_split (trimStart w.value.data)
      simp only [trim, List.append_assoc]
      rw [← h2]
      exact h1
    · intro c hc
      exact (List.mem_takeWhile_imp hc)
    · intro c hc
      rw [List.mem_reverse] at hc
      exact (List.mem_takeWhile_imp hc)
  · cases ht : trimEnd (trimStart w.value.data) with
    | nil => exact absurd ht hne
    | cons a t =>
      have ha : (trimEnd (trimStart w.value.data)).head? = some a := by
        rw [ht]; rfl
      refine ⟨a, ?_, trimStart_head _ a (trimEnd_head _ a ha)⟩
      simp only [trim]
      exact ha
  · cases hl : (trimEnd (trimStart w.value.data)).getLast? with
    | none =>
      rw [List.getLast?_eq_none_iff] at hl
      exact absurd hl hne
    | some a =>
      refine ⟨a, ?_, trimEnd_getLast _ a hl⟩
      simp only [trim]
      exact hl

theorem fetch_click_issues_request_witness :
    ((btnFetchClick ⟨"  abc 123 \t ", "", [], [], 0⟩).trace =
      [] ++ [Effect.fetch ("/order/" ++ trim "  abc 123 \t ")] ∧
     "/order/" ++ trim "  abc 123 \t " = "/order/abc 123") ∧
    ((btnFetchClick ⟨"abc123", "", [], [], 0⟩).trace =
      [] ++ [Effect.fetch ("/order/" ++ trim "abc123")] ∧
     "/order/" ++ trim "abc123" = "/order/abc123") :=
  ⟨⟨(fetch_click_issues_request ⟨"  abc 123 \t ", "", [], [], 0⟩ (by decide)).1,
     by decide⟩,
   ⟨(fetch_click_issues_request ⟨"abc123", "", [], [], 0⟩ (by decide)).1,
     by decide⟩⟩

/-! ## Settlement of a request -/

/-- C3: when a request in flight settles with a success status and a body
that parses to `d`, the output region holds the serialization of `d` and
nothing else, whatever it held before; the chain called `response.json()`
and wrote once, in the data handler. -/
theorem success_renders_json {δ : Type} (stringify : δ → String) (w : Widget)
    (id : Nat) (r : Response δ) (d : δ)
    (hp : id ∈ w.pending) (hok : r.ok = true) (hj : r.json = .ok d) :
    (step stringify w (.complete id (.responded r))).textContent = stringify d ∧
    (step stringify w (.complete id (.responded r))).trace =
      w.trace ++ [Effect.json, Effect.renderData (stringify d)] ∧
    (step stringify w (.complete id (.responded r))).value = w.value := by
  rw [step_complete_pending stringify w id _ hp, settle_data stringify r d w hok hj]
  simp [dropRequest, onData]

theorem success_renders_json_witness :
    (step stringify2 ⟨"abc123", "old", [Effect.fetch "/order/abc123"], [0], 1⟩
      (.complete 0 (.responded ⟨200, .ok shippedOrder⟩))).textContent =
      "\x7b\n  \"id\": \"abc123\",\n  \"status\": \"shipped\"\n\x7d" :=
  (success_renders_json stringify2
    ⟨"abc123", "old", [Effect.fetch "/order/abc123"], [0], 1⟩ 0
    ⟨200, .ok shippedOrder⟩ shippedOrder (by decide) (by decide) rfl).1.trans
    (by decide)

/-- C4: when a request in flight settles with a failure status, the output
region holds "Ошибка: Order not found", whatever the status code, the body
and the previous text are; `response.json()` is not called. -/
theorem failure_status_renders_not_found {δ : Type} (stringify : δ → String)
    (w : Widget) (id : Nat) (r : Response δ)
    (hp : id ∈ w.pending) (hok : r.ok = false) :
    (step stringify w (.complete id (.responded r))).textContent =
      "Ошибка: Order not found" ∧
    (step stringify w (.complete id (.responded r))).trace =
      w.trace ++ [Effect.renderError "Ошибка: Order not found"] := by
  rw [step_complete_pending stringify w id _ hp, settle_not_ok stringify r w hok]
  simp only [dropRequest, onError]
  exact ⟨by decide, by
    have h : ("Ошибка: " ++ "Order not found" : String) = "Ошибка: Order not found" := by
      decide
    rw [h]⟩

theorem failure_status_renders_not_found_witness :
    (step stringify2 ⟨"zzz", "old", [Effect.fetch "/order/zzz"], [0], 1⟩
      (.complete 0 (.responded ⟨404, .ok shippedOrder⟩))).textContent =
      "Ошибка: Order not found" :=
  (failure_status_renders_not_found stringify2
    ⟨"zzz", "old", [Effect.fetch "/order/zzz"], [0], 1⟩ 0
    ⟨404, .ok shippedOrder⟩ (by decide) (by decide)).1

/-- C5: when a request in flight is rejected with an error of message `m`,
and when it settles with a success status and a body whose parsing fails
with an error of message `m`, the output region holds "Ошибка: " followed
by `m`. -/
theorem error_renders_message {δ : Type} (stringify : δ → String)
    (w : Widget) (id : Nat) (e : JSError) (hp : id ∈ w.pending) :
    (step stringify w (.complete id (.rejected e))).textContent =
      "Ошибка: " ++ e.message ∧
    (∀ r : Response δ, r.ok = true → r.json = .error e →
      (step stringify w (.complete id (.responded r))).textContent =
        "Ошибка: " ++ e.message) := by
  constructor
  · rw [step_complete_pending stringify w id _ hp, settle_rejected]
    simp [dropRequest, onError]
  · intro r hok hj
    rw [step_complete_pending stringify w id _ hp,
      settle_parse_error stringify r e w hok hj]
    simp [dropRequest, onError]

theorem error_renders_message_witness :
    (step stringify2 ⟨"abc123", "old", [Effect.fetch "/order/abc123"], [0], 1⟩
      (.complete 0 (.rejected ⟨"Failed to fetch"⟩))).textContent =
      "Ошибка: " ++ "Failed to fetch" ∧
    (step stringify2 ⟨"abc123", "old", [Effect.fetch "/order/abc123"], [0], 1⟩
      (.complete 0 (.responded ⟨200, .error ⟨"Failed to fetch"⟩⟩))).textContent =
      "Ошибка: " ++ "Failed to fetch" :=
  ⟨(error_renders_message stringify2
      ⟨"abc123", "old", [Effect.fetch "/order/abc123"], [0], 1⟩ 0
      ⟨"Failed to fetch"⟩ (by decide)).1,
   (error_renders_message stringify2
      ⟨"abc123", "old", [Effect.fetch "/order/abc123"], [0], 1⟩ 0
      ⟨"Failed to fetch"⟩ (by decide)).2 ⟨200, .error ⟨"Failed to fetch"⟩⟩
      (by decide) rfl⟩

/-! ## The clear click -/

/-- C6: from every state the clear click leaves the identifier field and the
output region empty, calls neither `fetch` nor `alert`, and a second clear
click changes neither field again. -/
theorem clear_click_resets (w : Widget) :
    (btnClearClick w).value = "" ∧
    (btnClearClick w).textContent = "" ∧
    (btnClearClick w).trace = w.trace ++ [Effect.clearValue, Effect.clearOutput] ∧
    (btnClearClick w).pending = w.pending ∧
    (btnClearClick w).issued = w.issued ∧
    (btnClearClick (btnClearClick w)).value = (btnClearClick w).value ∧
    (btnClearClick (btnClearClick w)).textContent = (btnClearClick w).textContent := by
  simp [btnClearClick]

/-- C7: for each of the four outcomes of a request the chain assigns to the
output region once, either in the data handler or in the catch handler and
never in both, and its last promise is fulfilled: no error leaves it. -/
theorem chain_writes_once {δ : Type} (stringify : δ → String) (o : Outcome δ)
    (w : Widget) :
    (settle stringify o w).1 = .ok () ∧
    ∃ new : List Effect,
      (settle stringify o w).2.trace = w.trace ++ new ∧
      new.countP Effect.isDataWrite + new.countP Effect.isErrorWrite = 1 ∧
      (new.countP Effect.isDataWrite = 1 ↔ ∃ r d, o = .responded r ∧
        r.ok = true ∧ r.json = .ok d) := by
  cases o with
  | rejected e =>
    rw [settle_rejected]
    refine ⟨rfl, [Effect.renderError ("Ошибка: " ++ e.message)], rfl, ?_, ?_⟩
    · simp [Effect.isDataWrite, Effect.isErrorWrite]
    · simp [Effect.isDataWrite]
  | responded r =>
    cases hok : r.ok with
    | false =>
      rw [settle_not_ok stringify r w hok]
      refine ⟨rfl, [Effect.renderError ("Ошибка: " ++ "Order not found")], rfl, ?_, ?_⟩
      · simp [Effect.isDataWrite, Effect.isErrorWrite]
      · simp [Effect.isDataWrite, hok]
    | true =>
      cases hj : r.json with
      | error e =>
        rw [settle_parse_error stringify r e w hok hj]
        refine ⟨rfl, [Effect.json, Effect.renderError ("Ошибка: " ++ e.message)],
          by simp [onError], ?_, ?_⟩
        · simp [Effect.isDataWrite, Effect.isErrorWrite]
        · simp [Effect.isDataWrite, hj]
      | ok d =>
        rw [settle_data stringify r d w hok hj]
        refine ⟨rfl, [Effect.json, Effect.renderData (stringify d)],
          by simp [onData], ?_, ?_⟩
        · simp [Effect.isDataWrite, Effect.isErrorWrite]
        · simp [Effect.isDataWrite, hok, hj]

/-! ## Interleavings -/

/-- C8: in every sequence of events, the output region ends with the text of
the request that settled last, whichever request that is: when request `id`
is in flight after the events `es1` and settles with outcome `o`, and the
events `es2` after it hold no settlement and no clear click, the final text
is the rendering of `o`.  The issue order plays no part. -/
theorem last_completion_wins {δ : Type} (stringify : δ → String) (w : Widget)
    (es1 : List (Event δ)) (id : Nat) (o : Outcome δ) (es2 : List (Event δ))
    (hp : id ∈ (run stringify w es1).pending)
    (hq : ∀ e ∈ es2, e.touchesOutput = false) :
    (run stringify w (es1 ++ Event.complete id o :: es2)).textContent =
      specRendering stringify o := by
  rw [run_append, run_cons, run_quiet stringify es2 _ hq]
  exact (step_complete_textContent stringify _ id o hp).1

theorem last_completion_wins_witness :
    (run stringify2 ⟨"", "", [], [], 0⟩
      ([.input "a", .clickFetch, .input "b", .clickFetch,
        .complete 1 (.responded ⟨200, .ok (.str "order b")⟩)] ++
        Event.complete 0 (.responded ⟨200, .ok (.str "order a")⟩) ::
        [.input "c"])).textContent = "\"order a\"" :=
  (last_completion_wins stringify2 ⟨"", "", [], [], 0⟩
    [.input "a", .clickFetch, .input "b", .clickFetch,
      .complete 1 (.responded ⟨200, .ok (.str "order b")⟩)] 0
    (.responded ⟨200, .ok (.str "order a")⟩) [.input "c"]
    (by decide) (by decide)).trans (by decide)

/-- C9: with a non-empty trimmed identifier the fetch click itself leaves
the output region as it was and only calls `fetch`; the request is then in
flight; the text stays as long as nothing settles and nothing is cleared;
and along any events that do not settle this request the output region is at
every point what it would be had the request been taken out of flight. -/
theorem pending_request_leaves_output {δ : Type} (stringify : δ → String)
    (w : Widget) (h : trim w.value ≠ "") :
    (btnFetchClick w).textContent = w.textContent ∧
    (btnFetchClick w).trace =
      w.trace ++ [Effect.fetch ("/order/" ++ trim w.value)] ∧
    w.issued ∈ (btnFetchClick w).pending ∧
    (∀ es : List (Event δ), (∀ e ∈ es, e.touchesOutput = false) →
      (run stringify (btnFetchClick w) es).textContent = w.textContent) ∧
    (∀ es : List (Event δ), (∀ e ∈ es, e.completes w.issued = false) →
      (run stringify (btnFetchClick w) es).textContent =
        (run stringify (dropRequest w.issued (btnFetchClick w)) es).textContent) := by
  have h1 : (btnFetchClick w).textContent = w.textContent := by
    simp [btnFetchClick, h]
  have h2 : (btnFetchClick w).issued = w.issued + 1 := by
    simp [btnFetchClick, h]
  refine ⟨h1, ?_, ?_, ?_, ?_⟩
  · simp [btnFetchClick, h]
  · simp [btnFetchClick, h]
  · intro es hq
    rw [run_quiet stringify es _ hq, h1]
  · intro es he
    rw [run_dropRequest stringify w.issued es _ (by omega) he]
    rfl

theorem pending_request_leaves_output_witness :
    (btnFetchClick ⟨"abc123", "old text", [], [], 0⟩).textContent = "old text" ∧
    (run stringify2 (btnFetchClick ⟨"abc123", "old text", [], [], 0⟩)
      [.input "x", .clickFetch]).textContent = "old text" :=
  ⟨(pending_request_leaves_output stringify2
      ⟨"abc123", "old text", [], [], 0⟩ (by decide)).1,
   (pending_request_leaves_output stringify2
      ⟨"abc123", "old text", [], [], 0⟩ (by decide)).2.2.2.1
      [.input "x", .clickFetch] (by decide)⟩

/-- C10: a clear click does not cancel a request in flight.  After a fetch
click with a non-empty trimmed identifier, any events that do not settle
that request, a clear click and then the settlement of the request, the
output region holds the rendering of the outcome, which is not empty (the
serializer never gives the empty string), and the identifier field is
empty. -/
theorem clear_does_not_cancel {δ : Type} (stringify : δ → String) (w : Widget)
    (es : List (Event δ)) (o : Outcome δ)
    (h : trim w.value ≠ "")
    (hes : ∀ e ∈ es, e.completes w.issued = false)
    (hne : ∀ d, stringify d ≠ "") :
    (run stringify w (Event.clickFetch :: es ++
        [Event.clickClear, Event.complete w.issued o])).textContent =
      specRendering stringify o ∧
    (run stringify w (Event.clickFetch :: es ++
        [Event.clickClear, Event.complete w.issued o])).textContent ≠ "" ∧
    (run stringify w (Event.clickFetch :: es ++
        [Event.clickClear, Event.complete w.issued o])).value = "" := by
  have hp0 : w.issued ∈ (step stringify w Event.clickFetch).pending := by
    simp [step, btnFetchClick, h]
  have hp1 := run_keeps_pending stringify w.issued es _ hp0 hes
  have hp2 : w.issued ∈
      (step stringify (run stringify (step stringify w Event.clickFetch) es)
        Event.clickClear).pending :=
    step_keeps_pending stringify _ w.issued Event.clickClear hp1 rfl
  have hc := step_complete_textContent stringify _ w.issued o hp2
  have hrun : run stringify w (Event.clickFetch :: es ++
        [Event.clickClear, Event.complete w.issued o]) =
      step stringify (step stringify
        (run stringify (step stringify w Event.clickFetch) es) Event.clickClear)
        (Event.complete w.issued o) := by
    rw [List.cons_append, run_cons, run_append]
    rfl
  rw [hrun]
  refine ⟨hc.1, ?_, ?_⟩
  · rw [hc.1]
    exact specRendering_ne_empty stringify hne o
  · rw [hc.2]
    rfl

theorem clear_does_not_cancel_witness :
    (run stringify2 ⟨"abc123", "", [], [], 0⟩ (Event.clickFetch :: [] ++
        [Event.clickClear,
          Event.complete 0 (.responded ⟨200, .ok shippedOrder⟩)])).textContent =
      "\x7b\n  \"id\": \"abc123\",\n  \"status\": \"shipped\"\n\x7d" ∧
    (run stringify2 ⟨"abc123", "", [], [], 0⟩ (Event.clickFetch :: [] ++
        [Event.clickClear,
          Event.complete 0 (.responded ⟨200, .ok shippedOrder⟩)])).value = "" :=
  ⟨(clear_does_not_cancel stringify2 ⟨"abc123", "", [], [], 0⟩ []
      (.responded ⟨200, .ok shippedOrder⟩) (by decide) (by decide)
      stringify2_ne_empty).1.trans (by decide),
   (clear_does_not_cancel stringify2 ⟨"abc123", "", [], [], 0⟩ []
      (.responded ⟨200, .ok shippedOrder⟩) (by decide) (by decide)
      stringify2_ne_empty).2.2⟩

end OrderWidget
